import Mathlib

/-!
Shallow embedding of `dss_server.py` (FRA_Python_Server): the geospatial
core of a water-infrastructure decision-support server.  Python floats are
modelled as real numbers; Python's `float('inf')` sentinel is the `inf`
constructor of `WaterDist`; exceptions raised by malformed data are
modelled with `Except Unit`.
-/

namespace DSS

/-! ## DistanceMetric (`haversine`, lines 53-60) -/

/-- `math.radians`: degree-to-radian conversion used on all four inputs. -/
noncomputable def radians (deg : ℝ) : ℝ := deg * (Real.pi / 180)

/-- Modelled from the Python standard library `math.atan2` (an external
collaborator of the repository, used at line 59): the two-argument
arctangent with the usual quadrant corrections on the real plane. -/
noncomputable def atan2 (y x : ℝ) : ℝ :=
  if 0 < x then Real.arctan (y / x)
  else if x < 0 then
    (if 0 ≤ y then Real.arctan (y / x) + Real.pi else Real.arctan (y / x) - Real.pi)
  else
    (if 0 < y then Real.pi / 2 else if y < 0 then -(Real.pi / 2) else 0)

/-- The intermediate value `a` of `haversine` (line 58):
`sin(dlat/2)**2 + cos(lat1)*cos(lat2)*sin(dlon/2)**2` after converting
the four inputs to radians. -/
noncomputable def haversine_a (lon1 lat1 lon2 lat2 : ℝ) : ℝ :=
  let rlon1 := radians lon1
  let rlat1 := radians lat1
  let rlon2 := radians lon2
  let rlat2 := radians lat2
  let dlon := rlon2 - rlon1
  let dlat := rlat2 - rlat1
  Real.sin (dlat / 2) ^ 2 +
    Real.cos rlat1 * Real.cos rlat2 * Real.sin (dlon / 2) ^ 2

/-- `haversine(lon1, lat1, lon2, lat2)` (lines 53-60): great-circle
distance in kilometres on a sphere of radius `R = 6371`. -/
noncomputable def haversine (lon1 lat1 lon2 lat2 : ℝ) : ℝ :=
  let R : ℝ := 6371
  let a := haversine_a lon1 lat1 lon2 lat2
  let c := 2 * atan2 (Real.sqrt a) (Real.sqrt (1 - a))
  R * c

/-! ## NearestWaterIndex (`get_nearest_water_distance`, lines 101-107) -/

/-- A stored water-body location `{"lon": .., "lat": ..}` (line 93). -/
structure WaterPoint where
  lon : ℝ
  lat : ℝ

/-- A Python float that is either finite or the `float('inf')` sentinel. -/
inductive WaterDist where
  | fin (d : ℝ)
  | inf

/-- The comparison `dist < min_distance` (line 105) where `min_distance`
may be the infinite sentinel: every finite value is below `inf`. -/
def wdLt (d : ℝ) : WaterDist → Prop
  | .inf => True
  | .fin m => d < m

noncomputable instance (d : ℝ) : (w : WaterDist) → Decidable (wdLt d w)
  | .inf => isTrue trivial
  | .fin m => inferInstanceAs (Decidable (d < m))

/-- One iteration of the loop in `get_nearest_water_distance`
(lines 103-106): keep the smaller of the accumulator and the distance to
the current water body. -/
noncomputable def nearest_step (lon lat : ℝ) (min_distance : WaterDist)
    (water_body : WaterPoint) : WaterDist :=
  let dist := haversine lon lat water_body.lon water_body.lat
  if wdLt dist min_distance then .fin dist else min_distance

/-- `get_nearest_water_distance(lon, lat)` (lines 101-107): linear scan
starting from `min_distance = float('inf')`. -/
noncomputable def get_nearest_water_distance (lon lat : ℝ)
    (water_body_locations : List WaterPoint) : WaterDist :=
  water_body_locations.foldl (nearest_step lon lat) .inf

/-! ## RecommendationEngine (`generate_water_recommendation`, lines 110-140) -/

/-- `math.isinf(water_dist)` (line 118). -/
def WaterDist.isInf : WaterDist → Bool
  | .inf => true
  | .fin _ => false

/-- The comparison `water_dist > t` (lines 118, 124, 129) on a possibly
infinite float: `inf > t` holds for every finite threshold `t`. -/
def wdGt (w : WaterDist) (t : ℝ) : Prop :=
  match w with
  | .inf => True
  | .fin x => t < x

noncomputable instance (w : WaterDist) (t : ℝ) : Decidable (wdGt w t) :=
  match w with
  | .inf => isTrue trivial
  | .fin x => inferInstanceAs (Decidable (t < x))

/-- The recommendation text returned by `generate_water_recommendation`,
abstracted to which of the five message templates is produced; the three
finite tiers carry the distance that the template renders with `:.2f`.
`fieldSurvey` is the fixed string `"Data not available for this village.
Recommend field survey. 🌱"` (line 113); `critical` is the fixed
no-water-source / Jal-Jeevan-priority message (lines 119-123). -/
inductive Recommendation where
  | fieldSurvey
  | critical
  | severe (d : WaterDist)
  | moderate (d : WaterDist)
  | adequate (d : WaterDist)

/-- The `if/elif/else` cascade of lines 118-138:
`math.isinf(water_dist) or water_dist > 1000` → critical, `> 100` →
severe, `> 10` → moderate, otherwise adequate. -/
noncomputable def classify_distance (water_dist : WaterDist) : Recommendation :=
  if water_dist.isInf = true ∨ wdGt water_dist 1000 then .critical
  else if wdGt water_dist 100 then .severe water_dist
  else if wdGt water_dist 10 then .moderate water_dist
  else .adequate water_dist

/-! ## GeometryCentroid (`find_polygon_centroid`, lines 28-51)

The coordinate argument is a dynamically nested JSON value (numbers and
lists); `Except Unit` models the Python exceptions (`IndexError` on an
out-of-range subscript, `TypeError` on subscripting/iterating a number or
adding a non-number, `ValueError` on unpacking a non-pair). -/

/-- A JSON-like coordinate structure: a number or a list. -/
inductive Coord where
  | num (x : ℝ)
  | arr (elems : List Coord)

/-- Python subscription `c[i]`: fails on a number (`TypeError`) or an
out-of-range index (`IndexError`). -/
def Coord.sub (c : Coord) (i : ℕ) : Except Unit Coord :=
  match c with
  | .num _ => .error ()
  | .arr es =>
    match es.get? i with
    | some e => .ok e
    | none => .error ()

/-- `isinstance(c, list)` (line 34). -/
def Coord.isList : Coord → Bool
  | .num _ => false
  | .arr _ => true

/-- The inner loop `for lon, lat in ring: lon_sum += lon; lat_sum += lat;
num_points += 1` (lines 37-40 and 44-47); any element that is not a pair
of numbers raises. -/
def sumVertices : List Coord → ℝ × ℝ × ℕ → Except Unit (ℝ × ℝ × ℕ)
  | [], acc => .ok acc
  | e :: es, (lon_sum, lat_sum, num_points) =>
    match e with
    | .arr [.num lon, .num lat] =>
      sumVertices es (lon_sum + lon, lat_sum + lat, num_points + 1)
    | _ => .error ()

/-- Iterating one ring: a ring must itself be a list. -/
def sumRing (c : Coord) (acc : ℝ × ℝ × ℕ) : Except Unit (ℝ × ℝ × ℕ) :=
  match c with
  | .num _ => .error ()
  | .arr es => sumVertices es acc

/-- `for ring in coords` of the single-Polygon branch (lines 43-47). -/
def sumRings : List Coord → ℝ × ℝ × ℕ → Except Unit (ℝ × ℝ × ℕ)
  | [], acc => .ok acc
  | r :: rs, acc => do sumRings rs (← sumRing r acc)

/-- `for part in coords: for ring in part` of the MultiPolygon branch
(lines 35-40). -/
def sumParts : List Coord → ℝ × ℝ × ℕ → Except Unit (ℝ × ℝ × ℕ)
  | [], acc => .ok acc
  | p :: ps, acc =>
    match p with
    | .num _ => .error ()
    | .arr rings => do sumParts ps (← sumRings rings acc)

/-- `find_polygon_centroid(coords)` (lines 28-51): discriminate on
`isinstance(coords[0][0][0], list)`, accumulate every vertex, and return
the vertex average, or `(None, None)` when `num_points == 0`. -/
noncomputable def find_polygon_centroid (coords : Coord) :
    Except Unit (Option (ℝ × ℝ)) := do
  let c0 ← coords.sub 0
  let c00 ← c0.sub 0
  let c000 ← c00.sub 0
  let s ←
    if c000.isList then
      match coords with
      | .num _ => (.error () : Except Unit (ℝ × ℝ × ℕ))
      | .arr parts => sumParts parts (0, 0, 0)
    else
      match coords with
      | .num _ => (.error () : Except Unit (ℝ × ℝ × ℕ))
      | .arr rings => sumRings rings (0, 0, 0)
  if 0 < s.2.2 then
    pure (some (s.1 / (s.2.2 : ℝ), s.2.1 / (s.2.2 : ℝ)))
  else
    pure none

/-- Embed a `[lon, lat]` vertex. -/
def vertexC (p : ℝ × ℝ) : Coord := .arr [.num p.1, .num p.2]

/-- Embed a ring (a list of vertices). -/
def ringC (r : List (ℝ × ℝ)) : Coord := .arr (r.map vertexC)

/-- Embed Polygon coordinates (a list of rings). -/
def polyC (rs : List (List (ℝ × ℝ))) : Coord := .arr (rs.map ringC)

/-- Embed MultiPolygon coordinates (a list of polygons). -/
def multiC (ps : List (List (List (ℝ × ℝ)))) : Coord := .arr (ps.map polyC)

/-! ## VillageLookup and the `/analyze` endpoint (lines 110-159) -/

/-- A record of `fra_data` (lines 75-80). -/
structure VillageInfo where
  village : String
  state : String
  lon : ℝ
  lat : ℝ

/-- The process-wide stores `fra_data` and `water_body_locations`
(lines 24-25), read-only at query time.  The dictionary is modelled as an
association list queried with first-match lookup. -/
structure ServerState where
  fra_data : List (String × VillageInfo)
  water_body_locations : List WaterPoint

/-- `fra_data.get(village_name)` (line 111); the name is `None` when the
request record has no `"name"` field, and `dict.get(None)` misses. -/
def fra_get (m : List (String × VillageInfo)) :
    Option String → Option VillageInfo
  | none => none
  | some name => m.lookup name

/-- The "N/A" / numeric second component of the pair returned by
`generate_water_recommendation`. -/
inductive DistOut where
  | na
  | dist (d : WaterDist)

/-- `generate_water_recommendation(village_name)` (lines 110-140). -/
noncomputable def generate_water_recommendation (st : ServerState)
    (village_name : Option String) : Recommendation × DistOut :=
  match fra_get st.fra_data village_name with
  | none => (.fieldSurvey, .na)
  | some village_info =>
    let water_dist := get_nearest_water_distance village_info.lon
      village_info.lat st.water_body_locations
    (classify_distance water_dist, .dist water_dist)

/-- One record of the request body: `rec.get("name")` (line 150). -/
structure InputRec where
  name : Option String

/-- One record of the response (lines 153-157). -/
structure ResultRec where
  village : Option String
  recommendation : Recommendation
  distance_to_water : DistOut

/-- The body of the loop in `analyze` (lines 149-157). -/
noncomputable def mkResult (st : ServerState) (rec : InputRec) : ResultRec :=
  let r := generate_water_recommendation st rec.name
  { village := rec.name, recommendation := r.1, distance_to_water := r.2 }

/-- The `analyze` endpoint's results list (lines 147-157): a loop
appending one result per input record. -/
noncomputable def analyze (st : ServerState) (villages : List InputRec) :
    List ResultRec :=
  villages.foldl (fun results rec => results ++ [mkResult st rec]) []

/-! ## Helper lemmas -/

/-- The tier cascade on a finite distance, with the sentinel test and the
infinite-aware comparisons reduced to plain real comparisons. -/
lemma classify_distance_fin (d : ℝ) :
    classify_distance (.fin d) =
      if 1000 < d then .critical
      else if 100 < d then .severe (.fin d)
      else if 10 < d then .moderate (.fin d)
      else .adequate (.fin d) := by
  simp [classify_distance, WaterDist.isInf, wdGt]

/-- The haversine `a` term is symmetric in its two points. -/
lemma haversine_a_symm (lon1 lat1 lon2 lat2 : ℝ) :
    haversine_a lon1 lat1 lon2 lat2 = haversine_a lon2 lat2 lon1 lat1 := by
  have h : ∀ x y : ℝ, Real.sin ((x - y) / 2) ^ 2 = Real.sin ((y - x) / 2) ^ 2 := by
    intro x y
    rw [show (x - y) / 2 = -((y - x) / 2) by ring, Real.sin_neg]
    ring
  simp only [haversine_a]
  rw [h (radians lat2) (radians lat1), h (radians lon2) (radians lon1)]
  ring

/-- Once the accumulator is finite, the scan computes a running `min`. -/
lemma foldl_nearest_fin (lon lat : ℝ) (ws : List WaterPoint) (m : ℝ) :
    ws.foldl (nearest_step lon lat) (.fin m) =
      .fin (ws.foldl (fun a p => min a (haversine lon lat p.lon p.lat)) m) := by
  induction ws generalizing m with
  | nil => rfl
  | cons p ps ih =>
    simp only [List.foldl_cons]
    have hstep : nearest_step lon lat (.fin m) p =
        .fin (min m (haversine lon lat p.lon p.lat)) := by
      simp only [nearest_step, wdLt]
      by_cases h : haversine lon lat p.lon p.lat < m
      · rw [if_pos h, min_eq_right h.le]
      · rw [if_neg h, min_eq_left (not_lt.mp h)]
    rw [hstep, ih]

lemma foldl_min_le_init (l : List ℝ) (m : ℝ) : l.foldl min m ≤ m := by
  induction l generalizing m with
  | nil => exact le_refl m
  | cons x xs ih =>
    simp only [List.foldl_cons]
    exact (ih (min m x)).trans (min_le_left _ _)

lemma foldl_min_le_mem (l : List ℝ) (m : ℝ) : ∀ x ∈ l, l.foldl min m ≤ x := by
  induction l generalizing m with
  | nil => intro x hx; simp at hx
  | cons y ys ih =>
    intro x hx
    simp only [List.foldl_cons]
    rcases List.mem_cons.mp hx with rfl | hx2
    · exact (foldl_min_le_init ys (min m x)).trans (min_le_right _ _)
    · exact ih (min m y) x hx2

lemma foldl_min_mem (l : List ℝ) (m : ℝ) :
    l.foldl min m = m ∨ l.foldl min m ∈ l := by
  induction l generalizing m with
  | nil => left; rfl
  | cons x xs ih =>
    simp only [List.foldl_cons]
    rcases ih (min m x) with h | h
    · rw [h]
      rcases le_total m x with hmx | hxm
      · left; exact min_eq_left hmx
      · right; rw [min_eq_right hxm]; exact List.mem_cons_self x xs
    · right; exact List.mem_cons_of_mem x h

/-- On a non-empty store the scan returns a finite distance that is a
least element of the per-point distances. -/
lemma get_nearest_spec (lon lat : ℝ) (w : WaterPoint) (ws : List WaterPoint) :
    ∃ m : ℝ,
      get_nearest_water_distance lon lat (w :: ws) = .fin m ∧
      m ∈ (w :: ws).map (fun p => haversine lon lat p.lon p.lat) ∧
      ∀ d ∈ (w :: ws).map (fun p => haversine lon lat p.lon p.lat), m ≤ d := by
  have hhead : nearest_step lon lat .inf w =
      .fin (haversine lon lat w.lon w.lat) := by
    simp [nearest_step, wdLt]
  have hval : get_nearest_water_distance lon lat (w :: ws) =
      .fin ((ws.map fun p => haversine lon lat p.lon p.lat).foldl min
        (haversine lon lat w.lon w.lat)) := by
    rw [get_nearest_water_distance, List.foldl_cons, hhead, foldl_nearest_fin,
      List.foldl_map]
  refine ⟨_, hval, ?_, ?_⟩
  · rcases foldl_min_mem (ws.map fun p => haversine lon lat p.lon p.lat)
        (haversine lon lat w.lon w.lat) with h | h
    · rw [h, List.map_cons]
      exact List.mem_cons_self _ _
    · rw [List.map_cons]
      exact List.mem_cons_of_mem _ h
  · intro d hd
    rw [List.map_cons] at hd
    rcases List.mem_cons.mp hd with rfl | hd2
    · exact foldl_min_le_init _ _
    · exact foldl_min_le_mem _ _ _ hd2

/-- The result loop of `analyze`, with a general accumulator. -/
lemma analyze_foldl (st : ServerState) (vs : List InputRec)
    (acc : List ResultRec) :
    vs.foldl (fun results rec => results ++ [mkResult st rec]) acc =
      acc ++ vs.map (mkResult st) := by
  induction vs generalizing acc with
  | nil => simp
  | cons v vt ih =>
    simp only [List.foldl_cons, List.map_cons, ih, List.append_assoc,
      List.singleton_append]

/-- `analyze` is the per-record map of `mkResult`. -/
lemma analyze_eq_map (st : ServerState) (vs : List InputRec) :
    analyze st vs = vs.map (mkResult st) := by
  rw [analyze, analyze_foldl, List.nil_append]

/-- A name matching no association-list key looks up to `none`. -/
lemma lookup_none_of_not_mem (m : List (String × VillageInfo))
    (name : String) (h : ∀ p ∈ m, p.1 ≠ name) : m.lookup name = none := by
  induction m with
  | nil => rfl
  | cons q qs ih =>
    have hq : q.1 ≠ name := h q (List.mem_cons_self q qs)
    have hbeq : (name == q.1) = false := by
      simp [beq_iff_eq]
      exact fun he => hq he.symm
    obtain ⟨k, v⟩ := q
    simp only [List.lookup]
    rw [hbeq]
    exact ih fun p hp => h p (List.mem_cons_of_mem _ hp)

/-- Closed form of the haversine `a` term: half of one minus the cosine
of the central angle. -/
lemma haversine_a_eq (lon1 lat1 lon2 lat2 : ℝ) :
    haversine_a lon1 lat1 lon2 lat2 =
      (1 - (Real.sin (radians lat1) * Real.sin (radians lat2) +
        Real.cos (radians lat1) * Real.cos (radians lat2) *
          Real.cos (radians lon2 - radians lon1))) / 2 := by
  have h2 : ∀ x : ℝ, 2 * (x / 2) = x := fun x => by ring
  simp only [haversine_a]
  rw [Real.sin_sq_eq_half_sub, Real.sin_sq_eq_half_sub, h2, h2,
    Real.cos_sub]
  ring

/-- The spherical-law term is bounded by 1 in absolute value. -/
lemma central_term_bounds (p q t : ℝ) :
    -1 ≤ Real.sin p * Real.sin q +
        Real.cos p * Real.cos q * Real.cos t ∧
      Real.sin p * Real.sin q + Real.cos p * Real.cos q * Real.cos t ≤ 1 := by
  have hp := Real.sin_sq_add_cos_sq p
  have hq := Real.sin_sq_add_cos_sq q
  have ht := Real.sin_sq_add_cos_sq t
  constructor
  · nlinarith [sq_nonneg (Real.sin p + Real.sin q),
      sq_nonneg (Real.cos p + Real.cos q * Real.cos t),
      sq_nonneg (Real.cos q * Real.sin t)]
  · nlinarith [sq_nonneg (Real.sin p - Real.sin q),
      sq_nonneg (Real.cos p - Real.cos q * Real.cos t),
      sq_nonneg (Real.cos q * Real.sin t)]

/-- The haversine `a` term lies in `[0, 1]` for arbitrary real inputs. -/
lemma haversine_a_bounds (lon1 lat1 lon2 lat2 : ℝ) :
    0 ≤ haversine_a lon1 lat1 lon2 lat2 ∧
      haversine_a lon1 lat1 lon2 lat2 ≤ 1 := by
  rw [haversine_a_eq]
  obtain ⟨hlo, hhi⟩ := central_term_bounds (radians lat1) (radians lat2)
    (radians lon2 - radians lon1)
  constructor <;> linarith

/-- `atan2` is non-negative on the closed first quadrant. -/
lemma atan2_nonneg (y x : ℝ) (hy : 0 ≤ y) (hx : 0 ≤ x) : 0 ≤ atan2 y x := by
  unfold atan2
  by_cases hx1 : 0 < x
  · rw [if_pos hx1]
    have hdiv : 0 ≤ y / x := div_nonneg hy hx1.le
    have h := Real.arctan_strictMono.monotone hdiv
    rwa [Real.arctan_zero] at h
  · rw [if_neg hx1, if_neg (not_lt.mpr hx)]
    by_cases hy1 : 0 < y
    · rw [if_pos hy1]
      linarith [Real.pi_pos]
    · rw [if_neg hy1, if_neg (not_lt.mpr hy)]

/-- The vertex loop on an embedded ring accumulates the coordinate sums
and the vertex count. -/
lemma sumVertices_emb (r : List (ℝ × ℝ)) (lo la : ℝ) (n : ℕ) :
    sumVertices (r.map vertexC) (lo, la, n) =
      .ok (lo + (r.map Prod.fst).sum, la + (r.map Prod.snd).sum,
        n + r.length) := by
  induction r generalizing lo la n with
  | nil => simp [sumVertices]
  | cons v vt ih =>
    simp only [List.map_cons, sumVertices, vertexC, ih, List.sum_cons,
      List.length_cons]
    refine congrArg Except.ok ?_
    refine Prod.ext ?_ (Prod.ext ?_ ?_) <;> simp <;> try ring

/-- The ring loop of the Polygon branch on embedded rings. -/
lemma sumRings_emb (rs : List (List (ℝ × ℝ))) (lo la : ℝ) (n : ℕ) :
    sumRings (rs.map ringC) (lo, la, n) =
      .ok (lo + (rs.flatten.map Prod.fst).sum,
        la + (rs.flatten.map Prod.snd).sum, n + rs.flatten.length) := by
  induction rs generalizing lo la n with
  | nil => simp [sumRings]
  | cons r rt ih =>
    simp only [List.map_cons, sumRings, sumRing, ringC, Bind.bind,
      Except.bind, sumVertices_emb, ih, List.flatten_cons, List.map_append,
      List.sum_append, List.length_append]
    refine congrArg Except.ok ?_
    refine Prod.ext ?_ (Prod.ext ?_ ?_) <;> simp <;> try ring

/-- The part/ring loops of the MultiPolygon branch on embedded parts. -/
lemma sumParts_emb (ps : List (List (List (ℝ × ℝ)))) (lo la : ℝ) (n : ℕ) :
    sumParts (ps.map polyC) (lo, la, n) =
      .ok (lo + (ps.flatten.flatten.map Prod.fst).sum,
        la + (ps.flatten.flatten.map Prod.snd).sum, n + ps.flatten.flatten.length) := by
  induction ps generalizing lo la n with
  | nil => simp [sumParts]
  | cons p pt ih =>
    simp only [List.map_cons, sumParts, polyC, Bind.bind, Except.bind,
      sumRings_emb, ih, List.flatten_cons, List.map_append, List.sum_append,
      List.length_append, List.flatten_append]
    refine congrArg Except.ok ?_
    refine Prod.ext ?_ (Prod.ext ?_ ?_) <;> simp <;> try ring

/-- Evaluating the centroid routine on Polygon coordinates whose first
ring is non-empty: the nesting inspection selects the Polygon branch and
the result is the vertex average. -/
lemma centroid_polyC (v : ℝ × ℝ) (r0 : List (ℝ × ℝ))
    (rest : List (List (ℝ × ℝ))) :
    find_polygon_centroid (polyC ((v :: r0) :: rest)) =
      .ok (some
        ((((v :: r0) :: rest).flatten.map Prod.fst).sum /
            ((((v :: r0) :: rest).flatten.length : ℕ) : ℝ),
          (((v :: r0) :: rest).flatten.map Prod.snd).sum /
            ((((v :: r0) :: rest).flatten.length : ℕ) : ℝ))) := by
  have h0 : (polyC ((v :: r0) :: rest)).sub 0 = .ok (ringC (v :: r0)) := rfl
  have h1 : (ringC (v :: r0)).sub 0 = .ok (vertexC v) := rfl
  have h2 : (vertexC v).sub 0 = .ok (.num v.1) := rfl
  have hpos : 0 < (0 : ℕ) + ((v :: r0) :: rest).flatten.length := by
    simp [List.flatten_cons]
  rw [find_polygon_centroid, h0]
  simp only [Bind.bind, Except.bind, h1, h2, Coord.isList, Bool.false_eq_true,
    if_false, polyC, sumRings_emb, if_pos hpos]
  simp [pure, Except.pure]

/-- Evaluating the centroid routine on MultiPolygon coordinates whose
first ring is non-empty: the first element of the first ring is itself a
list, so the MultiPolygon branch runs and flattens one extra level. -/
lemma centroid_multiC (v : ℝ × ℝ) (r0 : List (ℝ × ℝ))
    (rs0 : List (List (ℝ × ℝ))) (rest : List (List (List (ℝ × ℝ)))) :
    find_polygon_centroid (multiC (((v :: r0) :: rs0) :: rest)) =
      .ok (some
        (((((v :: r0) :: rs0) :: rest).flatten.flatten.map Prod.fst).sum /
            (((((v :: r0) :: rs0) :: rest).flatten.flatten.length : ℕ) : ℝ),
          ((((v :: r0) :: rs0) :: rest).flatten.flatten.map Prod.snd).sum /
            (((((v :: r0) :: rs0) :: rest).flatten.flatten.length : ℕ) : ℝ))) := by
  have h0 : (multiC (((v :: r0) :: rs0) :: rest)).sub 0 =
      .ok (polyC ((v :: r0) :: rs0)) := rfl
  have h1 : (polyC ((v :: r0) :: rs0)).sub 0 = .ok (ringC (v :: r0)) := rfl
  have h2 : (ringC (v :: r0)).sub 0 = .ok (vertexC v) := rfl
  have hpos : 0 < (0 : ℕ) + (((v :: r0) :: rs0) :: rest).flatten.flatten.length := by
    simp [List.flatten_cons]
  rw [find_polygon_centroid, h0]
  simp only [Bind.bind, Except.bind, h1, h2, vertexC, Coord.isList, if_true,
    multiC, sumParts_emb, if_pos hpos]
  simp [pure, Except.pure]

/-! ## Claim theorems -/

/-- C1: the recommendation classifier partitions finite distances by the
exact thresholds 10, 100, 1000 with strict `>` on the upper side of each
band; in particular 10.00 → adequate, 10.01 → moderate, 100.00 →
moderate, 100.01 → severe, 1000.00 → severe, 1000.01 → critical. -/
theorem claim_C1 :
    (∀ d : ℝ,
      (classify_distance (.fin d) = .critical ↔ 1000 < d) ∧
      (classify_distance (.fin d) = .severe (.fin d) ↔ 100 < d ∧ d ≤ 1000) ∧
      (classify_distance (.fin d) = .moderate (.fin d) ↔ 10 < d ∧ d ≤ 100) ∧
      (classify_distance (.fin d) = .adequate (.fin d) ↔ d ≤ 10)) ∧
    classify_distance (.fin 10) = .adequate (.fin 10) ∧
    classify_distance (.fin 10.01) = .moderate (.fin 10.01) ∧
    classify_distance (.fin 100) = .moderate (.fin 100) ∧
    classify_distance (.fin 100.01) = .severe (.fin 100.01) ∧
    classify_distance (.fin 1000) = .severe (.fin 1000) ∧
    classify_distance (.fin 1000.01) = .critical := by
  have bands : ∀ d : ℝ,
      (classify_distance (.fin d) = .critical ↔ 1000 < d) ∧
      (classify_distance (.fin d) = .severe (.fin d) ↔ 100 < d ∧ d ≤ 1000) ∧
      (classify_distance (.fin d) = .moderate (.fin d) ↔ 10 < d ∧ d ≤ 100) ∧
      (classify_distance (.fin d) = .adequate (.fin d) ↔ d ≤ 10) := by
    intro d
    have hc := classify_distance_fin d
    rcases le_or_lt d 10 with h10 | h10
    · have hn1000 : ¬ 1000 < d := by linarith
      have hn100 : ¬ 100 < d := by linarith
      have hn10 : ¬ 10 < d := not_lt.mpr h10
      rw [hc, if_neg hn1000, if_neg hn100, if_neg hn10]
      exact ⟨by simp [hn1000], by simp [hn100], by simp [hn10], by simp [h10]⟩
    · rcases le_or_lt d 100 with h100 | h100
      · have hn1000 : ¬ 1000 < d := by linarith
        have hn100 : ¬ 100 < d := not_lt.mpr h100
        rw [hc, if_neg hn1000, if_neg hn100, if_pos h10]
        exact ⟨by simp [hn1000], by simp [hn100], by simp [h10, h100],
          by simp [not_le.mpr h10]⟩
      · rcases le_or_lt d 1000 with h1000 | h1000
        · have hn1000 : ¬ 1000 < d := not_lt.mpr h1000
          rw [hc, if_neg hn1000, if_pos h100]
          exact ⟨by simp [hn1000], by simp [h100, h1000],
            by simp [not_le.mpr h100], by simp [not_le.mpr h10]⟩
        · rw [hc, if_pos h1000]
          exact ⟨by simp [h1000], by simp [not_le.mpr h1000],
            by simp [not_le.mpr h100], by simp [not_le.mpr h10]⟩
  refine ⟨bands, ?_, ?_, ?_, ?_, ?_, ?_⟩
  · exact ((bands 10).2.2.2).mpr (by norm_num)
  · exact ((bands 10.01).2.2.1).mpr (by norm_num)
  · exact ((bands 100).2.2.1).mpr (by norm_num)
  · exact ((bands 100.01).2.1).mpr (by norm_num)
  · exact ((bands 1000).2.1).mpr (by norm_num)
  · exact ((bands 1000.01).1).mpr (by norm_num)

/-- C2: on an empty stored water-point collection the nearest-water scan
returns the infinite sentinel for every query point, and classifying the
sentinel yields the critical ("no water source nearby") tier. -/
theorem claim_C2 :
    (∀ lon lat : ℝ, get_nearest_water_distance lon lat [] = .inf) ∧
    classify_distance .inf = .critical := by
  constructor
  · intro lon lat
    rfl
  · simp [classify_distance, WaterDist.isInf]

/-- C3: on a non-empty store the nearest-water scan returns exactly the
minimum of the haversine distances to the stored points, and any
permutation of the store yields the same value. -/
theorem claim_C3 (lon lat : ℝ) (w : WaterPoint) (ws ws2 : List WaterPoint)
    (hperm : (w :: ws).Perm ws2) :
    ∃ m : ℝ,
      get_nearest_water_distance lon lat (w :: ws) = .fin m ∧
      m ∈ (w :: ws).map (fun p => haversine lon lat p.lon p.lat) ∧
      (∀ d ∈ (w :: ws).map (fun p => haversine lon lat p.lon p.lat), m ≤ d) ∧
      get_nearest_water_distance lon lat ws2 = .fin m := by
  obtain ⟨m, hm, hmem, hle⟩ := get_nearest_spec lon lat w ws
  cases ws2 with
  | nil => exact absurd hperm.length_eq (by simp)
  | cons w2 ws2t =>
    obtain ⟨m2, hm2, hmem2, hle2⟩ := get_nearest_spec lon lat w2 ws2t
    have hmap : ((w :: ws).map fun p => haversine lon lat p.lon p.lat).Perm
        ((w2 :: ws2t).map fun p => haversine lon lat p.lon p.lat) :=
      hperm.map _
    have h1 : m ≤ m2 := hle m2 (hmap.mem_iff.mpr hmem2)
    have h2 : m2 ≤ m := hle2 m (hmap.mem_iff.mp hmem)
    refine ⟨m, hm, hmem, hle, ?_⟩
    rw [hm2, le_antisymm h1 h2]

/-- Closed instance of C3 at a one-point store and the identity
permutation. -/
theorem claim_C3_witness :
    ∃ m : ℝ,
      get_nearest_water_distance 0 0 [⟨0, 0⟩] = .fin m ∧
      m ∈ [WaterPoint.mk 0 0].map (fun p => haversine 0 0 p.lon p.lat) ∧
      (∀ d ∈ [WaterPoint.mk 0 0].map (fun p => haversine 0 0 p.lon p.lat),
        m ≤ d) ∧
      get_nearest_water_distance 0 0 [⟨0, 0⟩] = .fin m :=
  claim_C3 0 0 ⟨0, 0⟩ [] [⟨0, 0⟩] (List.Perm.refl _)

/-- C4: the haversine distance is symmetric in its two points. -/
theorem claim_C4 :
    ∀ lon1 lat1 lon2 lat2 : ℝ,
      haversine lon1 lat1 lon2 lat2 = haversine lon2 lat2 lon1 lat1 := by
  intro lon1 lat1 lon2 lat2
  simp only [haversine]
  rw [haversine_a_symm]

/-- C5: the centroid is the unweighted arithmetic mean of longitude and
latitude over every vertex of every ring, with one extra flattening level
when the first ring's first element is itself a list (MultiPolygon); in
particular the centroid of `[[[0,0],[0,2],[2,2],[2,0]]]` is `(1, 1)`. -/
theorem claim_C5 :
    (∀ (v : ℝ × ℝ) (r0 : List (ℝ × ℝ)) (rest : List (List (ℝ × ℝ))),
      find_polygon_centroid (polyC ((v :: r0) :: rest)) =
        .ok (some
          ((((v :: r0) :: rest).flatten.map Prod.fst).sum /
              ((((v :: r0) :: rest).flatten.length : ℕ) : ℝ),
            (((v :: r0) :: rest).flatten.map Prod.snd).sum /
              ((((v :: r0) :: rest).flatten.length : ℕ) : ℝ)))) ∧
    (∀ (v : ℝ × ℝ) (r0 : List (ℝ × ℝ)) (rs0 : List (List (ℝ × ℝ)))
        (rest : List (List (List (ℝ × ℝ)))),
      find_polygon_centroid (multiC (((v :: r0) :: rs0) :: rest)) =
        .ok (some
          (((((v :: r0) :: rs0) :: rest).flatten.flatten.map Prod.fst).sum /
              (((((v :: r0) :: rs0) :: rest).flatten.flatten.length : ℕ) : ℝ),
            ((((v :: r0) :: rs0) :: rest).flatten.flatten.map Prod.snd).sum /
              (((((v :: r0) :: rs0) :: rest).flatten.flatten.length : ℕ) : ℝ)))) ∧
    find_polygon_centroid (polyC [[(0, 0), (0, 2), (2, 2), (2, 0)]]) =
      .ok (some (1, 1)) := by
  refine ⟨centroid_polyC, centroid_multiC, ?_⟩
  have h := centroid_polyC (0, 0) [(0, 2), (2, 2), (2, 0)] []
  rw [h]
  norm_num

/-- C6: the batch endpoint produces exactly one output record per input
record, in input order, each carrying the input name as `village`; the
record at each position is a function of that input record alone (the
whole result list is a pointwise map), so records are processed
independently. -/
theorem claim_C6 :
    ∀ (st : ServerState) (vs : List InputRec),
      analyze st vs = vs.map (mkResult st) ∧
      (analyze st vs).length = vs.length ∧
      ∀ rec : InputRec, (mkResult st rec).village = rec.name := by
  intro st vs
  refine ⟨analyze_eq_map st vs, ?_, ?_⟩
  · rw [analyze_eq_map, List.length_map]
  · intro rec
    rfl

/-- C7: a village name that matches no stored key (lookup is exact
string equality, hence case-sensitive) yields the field-survey message
with distance `"N/A"`, and the surrounding batch items are exactly what
they would be without it. -/
theorem claim_C7 (st : ServerState) (name : String)
    (h : ∀ p ∈ st.fra_data, p.1 ≠ name)
    (vs1 vs2 : List InputRec) :
    generate_water_recommendation st (some name) = (.fieldSurvey, .na) ∧
    analyze st (vs1 ++ ⟨some name⟩ :: vs2) =
      analyze st vs1 ++ ⟨some name, .fieldSurvey, .na⟩ :: analyze st vs2 := by
  have hlook : st.fra_data.lookup name = none := lookup_none_of_not_mem _ _ h
  have hgen : generate_water_recommendation st (some name) =
      (.fieldSurvey, .na) := by
    simp [generate_water_recommendation, fra_get, hlook]
  refine ⟨hgen, ?_⟩
  have hmk : mkResult st ⟨some name⟩ = ⟨some name, .fieldSurvey, .na⟩ := by
    simp [mkResult, hgen]
  rw [analyze_eq_map, analyze_eq_map, analyze_eq_map, List.map_append,
    List.map_cons, hmk]

/-- Closed instance of C7: the stored key `"Rampur"` does not match the
query `"rampur"`, which is routed to the field-survey result. -/
theorem claim_C7_witness :
    generate_water_recommendation
        ⟨[("Rampur", ⟨"Rampur", "Madhya Pradesh", 0, 0⟩)], []⟩
        (some "rampur") = (.fieldSurvey, .na) ∧
    analyze ⟨[("Rampur", ⟨"Rampur", "Madhya Pradesh", 0, 0⟩)], []⟩
        ([] ++ ⟨some "rampur"⟩ :: []) =
      analyze ⟨[("Rampur", ⟨"Rampur", "Madhya Pradesh", 0, 0⟩)], []⟩ [] ++
        ⟨some "rampur", .fieldSurvey, .na⟩ ::
          analyze ⟨[("Rampur", ⟨"Rampur", "Madhya Pradesh", 0, 0⟩)], []⟩ [] :=
  claim_C7 ⟨[("Rampur", ⟨"Rampur", "Madhya Pradesh", 0, 0⟩)], []⟩ "rampur"
    (by
      intro p hp
      rcases List.mem_singleton.mp hp with rfl
      decide)
    [] []

/-- C10: the reported distance is `"N/A"` exactly when the village name
is absent from the mapping; every registered village gets the numeric
nearest-water value — the infinite sentinel included — never `"N/A"`. -/
theorem claim_C10 (st : ServerState) (name : Option String) :
    ((generate_water_recommendation st name).2 = .na ↔
      fra_get st.fra_data name = none) ∧
    ∀ vi : VillageInfo, fra_get st.fra_data name = some vi →
      (generate_water_recommendation st name).2 =
        .dist (get_nearest_water_distance vi.lon vi.lat
          st.water_body_locations) := by
  cases h : fra_get st.fra_data name with
  | none =>
    constructor
    · simp [generate_water_recommendation, h]
    · intro vi hvi
      exact Option.noConfusion hvi
  | some vi =>
    constructor
    · simp [generate_water_recommendation, h]
    · intro vi2 hvi
      injection hvi with hvi2
      subst hvi2
      simp [generate_water_recommendation, h]

/-- Closed instance of C10: the registered village `"V"` with an empty
water store gets the infinite sentinel as its numeric distance, not
`"N/A"`. -/
theorem claim_C10_witness :
    ((generate_water_recommendation ⟨[("V", ⟨"V", "S", 0, 0⟩)], []⟩
        (some "V")).2 = .na ↔
      fra_get [("V", ⟨"V", "S", 0, 0⟩)] (some "V") = none) ∧
    (generate_water_recommendation ⟨[("V", ⟨"V", "S", 0, 0⟩)], []⟩
        (some "V")).2 = .dist (get_nearest_water_distance 0 0 []) :=
  ⟨(claim_C10 ⟨[("V", ⟨"V", "S", 0, 0⟩)], []⟩ (some "V")).1,
    (claim_C10 ⟨[("V", ⟨"V", "S", 0, 0⟩)], []⟩ (some "V")).2
      ⟨"V", "S", 0, 0⟩ rfl⟩

/-- C8: the haversine `a` term always lies in `[0, 1]` (so both
square-root arguments `a` and `1 - a` are non-negative and no domain
error can occur), and the resulting distance is non-negative. -/
theorem claim_C8 :
    ∀ lon1 lat1 lon2 lat2 : ℝ,
      0 ≤ haversine_a lon1 lat1 lon2 lat2 ∧
      haversine_a lon1 lat1 lon2 lat2 ≤ 1 ∧
      0 ≤ haversine lon1 lat1 lon2 lat2 := by
  intro lon1 lat1 lon2 lat2
  obtain ⟨h0, h1⟩ := haversine_a_bounds lon1 lat1 lon2 lat2
  refine ⟨h0, h1, ?_⟩
  simp only [haversine]
  have hat : 0 ≤ atan2 (Real.sqrt (haversine_a lon1 lat1 lon2 lat2))
      (Real.sqrt (1 - haversine_a lon1 lat1 lon2 lat2)) :=
    atan2_nonneg _ _ (Real.sqrt_nonneg _) (Real.sqrt_nonneg _)
  positivity

/-- C9: evaluating the centroid routine on a zero-vertex structure (a
polygon consisting of one empty ring).  The code raises an `IndexError`
at the `coords[0][0][0]` nesting inspection — modelled as `.error ()` —
instead of returning the absent result `(None, None)` that the spec
describes (which would be `.ok none` here). -/
theorem claim_C9_eval :
    find_polygon_centroid (polyC [[]]) = .error () ∧
    find_polygon_centroid (polyC [[]]) ≠ .ok none := by
  have h1 : find_polygon_centroid (polyC [[]]) = .error () := rfl
  refine ⟨h1, ?_⟩
  intro hcontra
  rw [h1] at hcontra
  exact Except.noConfusion hcontra

end DSS
